import Mathlib

/-!
Shallow embedding of the quoting and risk-gating engine of a Polymarket
market-maker bot: orderbook best-price extraction, inventory/imbalance
accounting, quote calculation, risk gating, config merging and the
inventory refresh.  JavaScript numbers are modelled as exact rationals;
`NaN` is modelled explicitly (`JsNum := Option ℚ`, `none` = NaN).
Infinities and exponent-notation numeric strings are outside the modelled
input grammar.
-/

namespace PMMBot

/-- A JavaScript number: a rational, or NaN (`none`). -/
abbrev JsNum := Option ℚ

def jsAdd (a b : JsNum) : JsNum :=
  match a, b with
  | some x, some y => some (x + y)
  | _, _ => none

def jsSub (a b : JsNum) : JsNum :=
  match a, b with
  | some x, some y => some (x - y)
  | _, _ => none

def jsMul (a b : JsNum) : JsNum :=
  match a, b with
  | some x, some y => some (x * y)
  | _, _ => none

/-- JS division; division by zero (which would give ±Infinity in JS) is
outside the modelled grammar and mapped to NaN — no embedded code path
divides by a zero divisor. -/
def jsDiv (a b : JsNum) : JsNum :=
  match a, b with
  | some x, some y => if y = 0 then none else some (x / y)
  | _, _ => none

/-- JS `>` comparison: false whenever either operand is NaN. -/
def jsGt (a b : JsNum) : Bool :=
  match a, b with
  | some x, some y => decide (x > y)
  | _, _ => false

/-- JS `<` comparison: false whenever either operand is NaN. -/
def jsLt (a b : JsNum) : Bool :=
  match a, b with
  | some x, some y => decide (x < y)
  | _, _ => false

/-- Embeds `Math.abs`, NaN-propagating. -/
def jsAbs (a : JsNum) : JsNum := a.map (fun x => |x|)

/-- Embeds `Math.max` of two values: NaN if either operand is NaN. -/
def jsMax (a b : JsNum) : JsNum :=
  match a, b with
  | some x, some y => some (max x y)
  | _, _ => none

/-- Embeds `Math.min` of two values: NaN if either operand is NaN. -/
def jsMin (a b : JsNum) : JsNum :=
  match a, b with
  | some x, some y => some (min x y)
  | _, _ => none

/-- JS `=== 0` on a number: false for NaN. -/
def jsEqZero (a : JsNum) : Bool :=
  match a with
  | some x => decide (x = 0)
  | none => false

/-- Truthiness of a JS number: `0` and NaN are falsy. -/
def truthy (a : JsNum) : Bool :=
  match a with
  | some x => decide (x ≠ 0)
  | none => false

/-- Truthiness of a `number | undefined` value. -/
def truthyOpt (a : Option JsNum) : Bool :=
  match a with
  | some n => truthy n
  | none => false

/-- Accumulates decimal digits: returns the value read, the number of
digits consumed and the remaining characters. -/
def parseDigits : List Char → ℕ → ℕ → ℕ × ℕ × List Char
  | [], v, k => (v, k, [])
  | c :: t, v, k =>
    if c.isDigit then parseDigits t (10 * v + (c.toNat - 48)) (k + 1)
    else (v, k, c :: t)

/-- JS `parseFloat` on the modelled input grammar: optional leading
whitespace, optional sign, digits with an optional fractional part;
trailing garbage is ignored; if no digits are consumed the result is NaN. -/
def parseFloat (s : String) : JsNum :=
  let cs := s.data.dropWhile Char.isWhitespace
  let sgncs : ℚ × List Char :=
    match cs with
    | '-' :: t => (-1, t)
    | '+' :: t => (1, t)
    | _ => (1, cs)
  let ipr := parseDigits sgncs.2 0 0
  match ipr.2.2 with
  | '.' :: t =>
    let fpr := parseDigits t 0 0
    if ipr.2.1 = 0 ∧ fpr.2.1 = 0 then none
    else some (sgncs.1 * ((ipr.1 : ℚ) + (fpr.1 : ℚ) / (10 : ℚ) ^ fpr.2.1))
  | _ => if ipr.2.1 = 0 then none else some (sgncs.1 * (ipr.1 : ℚ))

/-- Embeds `s || zeroStr` for a string `s`: the empty string is falsy.  Used for the
source's `pos.curPrice || zeroStr` and `pos.size || zeroStr` defaults
(the string is a quoted zero in the source). -/
def orZeroStr (s : String) : String := if s = "" then "0" else s

/-! ## OrderbookMonitor (src/services/orderbookMonitor.ts) -/

/-- One raw orderbook level, in any of the three runtime representations
handled by `getBestBid`/`getBestAsk`: a bare string, an array (the price is
element 0, `undefined` if the array is empty), or an object with a `price`
field. -/
inductive RawLevel
  | str (s : String)
  | arr (xs : List String)
  | obj (price : String) (sz : String)
deriving DecidableEq

/-- The numeric price a level is normalised to: `parseFloat(bid)` for a
string, `parseFloat(bid[0])` for an array (an empty array gives
`parseFloat(undefined)` = NaN), `parseFloat(bid.price)` for an object. -/
def levelPrice : RawLevel → JsNum
  | .str s => parseFloat s
  | .arr xs =>
    match xs with
    | [] => none
    | h :: _ => parseFloat h
  | .obj p _ => parseFloat p

structure Orderbook where
  bids : List RawLevel
  asks : List RawLevel
deriving DecidableEq

/-- Embeds `OrderbookMonitor.getBestBid`: `Math.max` over `parseFloat` of every bid
level; `undefined` when the bid list is empty. -/
def getBestBid (ob : Orderbook) : Option JsNum :=
  match ob.bids.map levelPrice with
  | [] => none
  | p :: ps => some (ps.foldl jsMax p)

/-- Embeds `OrderbookMonitor.getBestAsk`: `Math.min` over `parseFloat` of every ask
level; `undefined` when the ask list is empty. -/
def getBestAsk (ob : Orderbook) : Option JsNum :=
  match ob.asks.map levelPrice with
  | [] => none
  | p :: ps => some (ps.foldl jsMin p)

structure OrderbookSnapshot where
  tokenId : String
  bestBid : Option JsNum
  bestAsk : Option JsNum
  midPrice : Option JsNum
  spread : Option JsNum
  spreadBps : Option JsNum
deriving DecidableEq

/-- The snapshot derivation inside `OrderbookMonitor.updateOrderbook`:
`midPrice = bestBid && bestAsk ? (bestBid + bestAsk) / 2 : undefined`,
`spread = bestBid && bestAsk ? bestAsk - bestBid : undefined`,
`spreadBps = midPrice && spread ? spread / midPrice * 10000 : undefined`. -/
def mkSnapshot (tid : String) (ob : Orderbook) : OrderbookSnapshot :=
  let bb := getBestBid ob
  let ba := getBestAsk ob
  let midPrice : Option JsNum :=
    if truthyOpt bb && truthyOpt ba then some (jsDiv (jsAdd (bb.getD none) (ba.getD none)) (some 2))
    else none
  let spread : Option JsNum :=
    if truthyOpt bb && truthyOpt ba then some (jsSub (ba.getD none) (bb.getD none))
    else none
  let spreadBps : Option JsNum :=
    if truthyOpt midPrice && truthyOpt spread then
      some (jsMul (jsDiv (spread.getD none) (midPrice.getD none)) (some 10000))
    else none
  ⟨tid, bb, ba, midPrice, spread, spreadBps⟩

/-- The subscriber registry `updateCallbacks : Map<string, Set<callback>>`;
callbacks are identified by ids, one list per token id, duplicate-free by
construction (JS `Set` semantics). -/
abbrev CallbackRegistry := List (String × List ℕ)

def regGet (r : CallbackRegistry) (k : String) : List ℕ :=
  ((r.find? (fun e => e.1 = k)).map (fun e => e.2)).getD []

def regHas (r : CallbackRegistry) (k : String) : Bool :=
  (r.find? (fun e => e.1 = k)).isSome

/-- JS `Map.set`: replace the (unique) entry for the key, or append. -/
def regSet : CallbackRegistry → String → List ℕ → CallbackRegistry
  | [], k, v => [(k, v)]
  | e :: t, k, v => if e.1 = k then (k, v) :: t else e :: regSet t k v

/-- JS `Set.add`: inserts unless already present. -/
def setAdd (s : List ℕ) (c : ℕ) : List ℕ := if c ∈ s then s else s ++ [c]

/-- JS `Set.delete`: removes the element (at most one occurrence exists). -/
def setDelete (s : List ℕ) (c : ℕ) : List ℕ := s.filter (fun x => x ≠ c)

/-- Embeds `OrderbookMonitor.subscribe(tokenId, callback)`: creates the per-token
set if missing and adds the callback to it. -/
def subscribeFn (r : CallbackRegistry) (tid : String) (cb : ℕ) : CallbackRegistry :=
  let r1 := if regHas r tid then r else regSet r tid []
  regSet r1 tid (setAdd (regGet r1 tid) cb)

/-- The unsubscribe closure returned by `subscribe`:
`updateCallbacks.get(tokenId)?.delete(callback)` — a no-op when the token
has no registered set. -/
def unsubscribeFn (r : CallbackRegistry) (tid : String) (cb : ℕ) : CallbackRegistry :=
  if regHas r tid then regSet r tid (setDelete (regGet r tid) cb) else r

/-- The snapshot map of the monitor. -/
abbrev SnapshotMap := List (String × OrderbookSnapshot)

def snapGet (m : SnapshotMap) (k : String) : Option OrderbookSnapshot :=
  (m.find? (fun e => e.1 = k)).map (fun e => e.2)

def snapSet : SnapshotMap → String → OrderbookSnapshot → SnapshotMap
  | [], k, v => [(k, v)]
  | e :: t, k, v => if e.1 = k then (k, v) :: t else e :: snapSet t k v

structure MonitorState where
  snapshots : SnapshotMap
  callbacks : CallbackRegistry
deriving DecidableEq

/-- Embeds `OrderbookMonitor.updateOrderbook` for one token with a fetched,
non-null orderbook: derives the snapshot, stores it, then notifies the
token's subscribers (each callback in the set fires exactly once, in
insertion order).  Returns the new state and the list of fired callbacks. -/
def ingest (st : MonitorState) (tid : String) (ob : Orderbook) : MonitorState × List ℕ :=
  let snap := mkSnapshot tid ob
  (⟨snapSet st.snapshots tid snap, st.callbacks⟩, regGet st.callbacks tid)

/-! ## InventoryManager (src/services/inventoryManager.ts) -/

/-- A cached position record (all fields are strings in the API payload). -/
structure Position where
  conditionId : String
  outcome : String
  size : String
  avgPrice : String
  curPrice : String
deriving DecidableEq

/-- The `positions` map, keyed by `conditionId-outcome`. -/
abbrev PosMap := List (String × Position)

def posGet (m : PosMap) (k : String) : Option Position :=
  (m.find? (fun e => e.1 = k)).map (fun e => e.2)

def posSet : PosMap → String → Position → PosMap
  | [], k, v => [(k, v)]
  | e :: t, k, v => if e.1 = k then (k, v) :: t else e :: posSet t k v

/-- The rebuild loop of `updateInventory`: clear the map, then insert every
fetched position under the key `conditionId-outcome`. -/
def buildPositions (ps : List Position) : PosMap :=
  ps.foldl (fun m p => posSet m (p.conditionId ++ "-" ++ p.outcome) p) []

/-- Embeds `PolymarketClient.getPositions`: catches any request failure and
resolves with an empty list — it never rejects. -/
def getPositionsResult (fetch : Except String (List Position)) : List Position :=
  match fetch with
  | .error _ => []
  | .ok ps => ps

/-- Embeds `InventoryManager.updateInventory` composed with
`PolymarketClient.getPositions`: since `getPositions` never rejects, the
`catch` branch of `updateInventory` is unreachable and the cache is always
replaced by the map built from whatever list `getPositions` resolved with. -/
def updateInventory (fetch : Except String (List Position)) (_cache : PosMap) : PosMap :=
  buildPositions (getPositionsResult fetch)

structure Inventory where
  yesSize : JsNum
  noSize : JsNum
  yesValue : JsNum
  noValue : JsNum
  netExposure : JsNum
deriving DecidableEq

/-- Embeds `InventoryManager.getInventory(conditionId)`. -/
def getInventory (m : PosMap) (conditionId : String) : Inventory :=
  let yesPosition := posGet m (conditionId ++ "-YES")
  let noPosition := posGet m (conditionId ++ "-NO")
  let yesSize := match yesPosition with
    | some p => parseFloat p.size
    | none => some 0
  let noSize := match noPosition with
    | some p => parseFloat p.size
    | none => some 0
  let yesValue := match yesPosition with
    | some p => jsMul (parseFloat (orZeroStr p.curPrice)) yesSize
    | none => some 0
  let noValue := match noPosition with
    | some p => jsMul (parseFloat (orZeroStr p.curPrice)) noSize
    | none => some 0
  ⟨yesSize, noSize, yesValue, noValue, jsSub yesValue noValue⟩

/-- Embeds `InventoryManager.getInventoryImbalance(conditionId)`. -/
def getInventoryImbalance (m : PosMap) (conditionId : String) : JsNum :=
  let inventory := getInventory m conditionId
  let totalValue := jsAdd inventory.yesValue inventory.noValue
  if jsEqZero totalValue then some 0
  else jsDiv inventory.netExposure totalValue

/-- Embeds `InventoryManager.getAllPositions`. -/
def getAllPositions (m : PosMap) : List Position := m.map (fun e => e.2)

/-! ## MarketMaker (src/services/marketMaker.ts) -/

structure MarketMakerConfig where
  spreadBps : ℚ
  orderSizeUsd : ℚ
  maxPositionSizeUsd : ℚ
  maxInventoryImbalance : ℚ
deriving DecidableEq

/-- The `config.strategy` process defaults used by `startMarketMaking`. -/
structure StrategyDefaults where
  defaultSpreadBps : ℚ
  defaultOrderSizeUsd : ℚ
  maxPositionSizeUsd : ℚ
  maxInventoryImbalance : ℚ
deriving DecidableEq

/-- The `config.risk` process settings used by `checkRiskLimits`. -/
structure RiskConfig where
  maxTotalExposureUsd : ℚ
  enableRiskLimits : Bool
deriving DecidableEq

/-- The optional `customConfig` override passed to `startMarketMaking`
(`Partial<MarketMakerConfig>`): each field may be absent. -/
structure ConfigOverride where
  spreadBps : Option ℚ
  orderSizeUsd : Option ℚ
  maxPositionSizeUsd : Option ℚ
  maxInventoryImbalance : Option ℚ
deriving DecidableEq

/-- JS `a || b` on a `number | undefined` left operand: falls through to
`b` when `a` is `undefined` or `0` (falsy). -/
def orFalsy (a : Option ℚ) (b : ℚ) : ℚ :=
  match a with
  | some v => if v = 0 then b else v
  | none => b

/-- The session-configuration merge inside `startMarketMaking`:
`spreadBps: customConfig?.spreadBps || config.strategy.defaultSpreadBps`
and likewise for the other three fields.  `customConfig?.f` is `undefined`
when the whole override object is absent. -/
def buildMarketConfig (customConfig : Option ConfigOverride) (s : StrategyDefaults) :
    MarketMakerConfig :=
  { spreadBps := orFalsy (customConfig.bind (fun c => c.spreadBps)) s.defaultSpreadBps
    orderSizeUsd := orFalsy (customConfig.bind (fun c => c.orderSizeUsd)) s.defaultOrderSizeUsd
    maxPositionSizeUsd :=
      orFalsy (customConfig.bind (fun c => c.maxPositionSizeUsd)) s.maxPositionSizeUsd
    maxInventoryImbalance :=
      orFalsy (customConfig.bind (fun c => c.maxInventoryImbalance)) s.maxInventoryImbalance }

structure Market where
  id : String
  conditionId : String
  clobTokenIds : List String
deriving DecidableEq

inductive Side
  | buy
  | sell
deriving DecidableEq

/-- The two outcome labels passed to `calculateQuotes`. -/
inductive Outcome
  | yes
  | no
deriving DecidableEq

/-- Embeds `Number.prototype.toFixed(6)`, as the exact rational it denotes:
round to the nearest multiple of `10⁻⁶`, ties towards the larger value. -/
def toFixed6 (x : ℚ) : ℚ := (⌊x * 1000000 + 1 / 2⌋ : ℚ) / 1000000

/-- An ephemeral quote; `price` and `size` are the rationals denoted by the
source's `toFixed(6)` strings. -/
structure Quote where
  side : Side
  price : ℚ
  size : ℚ
  tokenId : String
deriving DecidableEq

structure ActiveMarket where
  market : Market
  config : MarketMakerConfig
  yesTokenId : String
  noTokenId : String
  orders : List String
  lastUpdate : ℤ
deriving DecidableEq

abbrev ActiveMap := List (String × ActiveMarket)

def amGet (m : ActiveMap) (k : String) : Option ActiveMarket :=
  (m.find? (fun e => e.1 = k)).map (fun e => e.2)

def amSet : ActiveMap → String → ActiveMarket → ActiveMap
  | [], k, v => [(k, v)]
  | e :: t, k, v => if e.1 = k then (k, v) :: t else e :: amSet t k v

/-- The mutable state read by a quote refresh: the session map of the
`MarketMaker`, the position cache of the `InventoryManager` and the
snapshot map of the `OrderbookMonitor`. -/
structure MMState where
  activeMarkets : ActiveMap
  positions : PosMap
  snapshots : SnapshotMap
deriving DecidableEq

/-- Embeds `MarketMaker.calculateQuotes(snapshot, marketConfig, outcome, marketId)`.
The leading `!snapshot.midPrice` guard rejects an undefined, NaN or zero
mid price; the match on `amGet` is the `activeMarkets.get(marketId)`
lookup. -/
def calculateQuotes (st : MMState) (snapshot : OrderbookSnapshot)
    (marketConfig : MarketMakerConfig) (outcome : Outcome) (marketId : String) : List Quote :=
  match snapshot.midPrice with
  | none => []
  | some none => []
  | some (some mid) =>
    if mid = 0 then []
    else
      match amGet st.activeMarkets marketId with
      | none => []
      | some activeMarket =>
        let imbalance := getInventoryImbalance st.positions activeMarket.market.conditionId
        let adjustedSpreadBps :=
          if jsGt (jsAbs imbalance) (some (3 / 10)) then marketConfig.spreadBps * (3 / 2)
          else marketConfig.spreadBps
        let adjustedSpread := mid * adjustedSpreadBps / 10000
        let bidPrice := mid - adjustedSpread / 2
        let askPrice := mid + adjustedSpread / 2
        let orderSizeTokens := marketConfig.orderSizeUsd / mid
        let buySize :=
          match outcome with
          | .yes =>
            if jsGt imbalance (some (1 / 5)) then orderSizeTokens * (1 / 2)
            else if jsLt imbalance (some (-(1 / 5))) then orderSizeTokens * (3 / 2)
            else orderSizeTokens
          | .no =>
            if jsLt imbalance (some (-(1 / 5))) then orderSizeTokens * (1 / 2)
            else if jsGt imbalance (some (1 / 5)) then orderSizeTokens * (3 / 2)
            else orderSizeTokens
        let sellSize :=
          match outcome with
          | .yes =>
            if jsGt imbalance (some (1 / 5)) then orderSizeTokens * (3 / 2)
            else if jsLt imbalance (some (-(1 / 5))) then orderSizeTokens * (1 / 2)
            else orderSizeTokens
          | .no =>
            if jsLt imbalance (some (-(1 / 5))) then orderSizeTokens * (3 / 2)
            else if jsGt imbalance (some (1 / 5)) then orderSizeTokens * (1 / 2)
            else orderSizeTokens
        [ ⟨.buy, toFixed6 bidPrice, toFixed6 buySize, snapshot.tokenId⟩,
          ⟨.sell, toFixed6 askPrice, toFixed6 sellSize, snapshot.tokenId⟩ ]

/-- Embeds `MarketMaker.checkRiskLimits(marketId)`. -/
def checkRiskLimits (risk : RiskConfig) (st : MMState) (marketId : String) : Bool :=
  if !risk.enableRiskLimits then true
  else
    match amGet st.activeMarkets marketId with
    | none => false
    | some activeMarket =>
      let imbalance := jsAbs (getInventoryImbalance st.positions activeMarket.market.conditionId)
      if jsGt imbalance (some activeMarket.config.maxInventoryImbalance) then false
      else
        let inventory := getInventory st.positions activeMarket.market.conditionId
        let totalValue := jsAdd inventory.yesValue inventory.noValue
        if jsGt totalValue (some activeMarket.config.maxPositionSizeUsd) then false
        else
          let totalExposure :=
            (getAllPositions st.positions).foldl
              (fun sum pos =>
                jsAdd sum (jsMul (parseFloat (orZeroStr pos.curPrice))
                  (parseFloat (orZeroStr pos.size))))
              (some 0)
          if jsGt totalExposure (some risk.maxTotalExposureUsd) then false
          else true

/-- An observable exchange-side effect issued by a refresh. -/
inductive Effect
  | cancelOrder (orderId : String)
  | placeOrder (q : Quote)
deriving DecidableEq

/-- The order-placement loop of `updateQuotes`: one `placeOrder` call per
quote; the oracle supplies each call's result (`some id` on success,
`none` on failure), and successful ids are collected in call order. -/
def placeLoop : List Quote → List (Option String) → List String × List Effect
  | [], _ => ([], [])
  | q :: qs, oracle =>
    let res := oracle.headD none
    let rest := placeLoop qs oracle.tail
    match res with
    | some id => (id :: rest.1, Effect.placeOrder q :: rest.2)
    | none => (rest.1, Effect.placeOrder q :: rest.2)

/-- JS `Set.add` on the order-id set. -/
def ordersAdd (s : List String) (id : String) : List String :=
  if id ∈ s then s else s ++ [id]

/-- Embeds `MarketMaker.updateQuotes(marketId)` as a state transformer: returns
the new state and the list of cancel/place effects issued.  The early
returns (no session, risk gate denied, missing snapshot) leave the state
untouched and issue no effects; otherwise the refresh cancels every
outstanding order, clears the set, places the newly computed quotes and
records the successful ids and the refresh timestamp. -/
def updateQuotes (risk : RiskConfig) (st : MMState) (marketId : String)
    (oracle : List (Option String)) (now : ℤ) : MMState × List Effect :=
  match amGet st.activeMarkets marketId with
  | none => (st, [])
  | some activeMarket =>
    if !checkRiskLimits risk st marketId then (st, [])
    else
      match snapGet st.snapshots activeMarket.yesTokenId,
          snapGet st.snapshots activeMarket.noTokenId with
      | some yesSnapshot, some noSnapshot =>
        let yesQuotes := calculateQuotes st yesSnapshot activeMarket.config .yes marketId
        let noQuotes := calculateQuotes st noSnapshot activeMarket.config .no marketId
        let cancelEffects := activeMarket.orders.map Effect.cancelOrder
        let placed := placeLoop (yesQuotes ++ noQuotes) oracle
        let newOrders := placed.1.foldl ordersAdd []
        let activeMarket' :=
          { activeMarket with orders := newOrders, lastUpdate := now }
        (⟨amSet st.activeMarkets marketId activeMarket', st.positions, st.snapshots⟩,
          cancelEffects ++ placed.2)
      | _, _ => (st, [])

/-! ## Concrete fixtures used by witnesses and counterexamples -/

def exMarket : Market := ⟨"m1", "c1", ["tY", "tN"]⟩

def exCfg : MarketMakerConfig := ⟨50, 10, 100, 3 / 5⟩

def exActive (cfg : MarketMakerConfig) (orders : List String) : ActiveMarket :=
  ⟨exMarket, cfg, "tY", "tN", orders, 0⟩

/-- A `MarketMaker`/`InventoryManager` state with the single session `m1`. -/
def stOf (cfg : MarketMakerConfig) (orders : List String) (pos : PosMap) : MMState :=
  ⟨[("m1", exActive cfg orders)], pos, []⟩

/-- Balanced book: both outcomes worth 1. -/
def cacheBalanced : PosMap :=
  buildPositions [⟨"c1", "YES", "1", "0.5", "1"⟩, ⟨"c1", "NO", "1", "0.5", "1"⟩]

/-- Short NO leg: values 3 and −1, total 2, net 4 — ratio 2. -/
def cacheShortNo : PosMap :=
  buildPositions [⟨"c1", "YES", "3", "0.5", "1"⟩, ⟨"c1", "NO", "-1", "0.5", "1"⟩]

/-- Values 1.5 and 0.5: imbalance 0.5. -/
def cacheHalf : PosMap :=
  buildPositions [⟨"c1", "YES", "1.5", "0.5", "1"⟩, ⟨"c1", "NO", "0.5", "0.5", "1"⟩]

/-- Values 1.65 and 0.35: imbalance 0.65. -/
def cacheSkewed : PosMap :=
  buildPositions [⟨"c1", "YES", "1.65", "0.5", "1"⟩, ⟨"c1", "NO", "0.35", "0.5", "1"⟩]

/-- A snapshot whose mid price is the number 0 (defined, but falsy). -/
def snapZeroMid : OrderbookSnapshot := ⟨"tY", none, none, some (some 0), none, none⟩

/-- A snapshot with mid price 0.50. -/
def snapHalfMid : OrderbookSnapshot :=
  ⟨"tY", some (some (499 / 1000)), some (some (501 / 1000)), some (some (1 / 2)),
    some (some (1 / 500)), some (some 40)⟩


/-! ## Claims -/

/-- C10: for every snapshot whose mid price is the number 0 (defined, not
merely undefined), `calculateQuotes` returns the empty list, so the
division `orderSizeUsd / mid` computing the base token size is never
evaluated with a zero divisor and no quote with infinite or NaN size is
produced. -/
theorem zero_mid_yields_no_quotes (st : MMState) (snapshot : OrderbookSnapshot)
    (cfg : MarketMakerConfig) (o : Outcome) (mkt : String)
    (h : snapshot.midPrice = some (some 0)) :
    calculateQuotes st snapshot cfg o mkt = [] := by
  unfold calculateQuotes
  rw [h]
  simp

/-- C10 witness: a concrete active session and a snapshot with mid price 0
yield no quotes. -/
theorem zero_mid_yields_no_quotes_witness :
    calculateQuotes (stOf exCfg [] cacheBalanced) snapZeroMid exCfg Outcome.yes "m1" = [] :=
  zero_mid_yields_no_quotes _ _ _ _ _ rfl

/-- C2 counterexample: with the session `m1` active, a snapshot whose mid
price is the number 0 — defined, not undefined — produces no quotes at
all, refuting "for every snapshot with a defined mid price, the quote
calculation returns exactly one buy and one sell quote". -/
theorem quote_prices_claim_false_at_zero_mid :
    (amGet (stOf exCfg [] cacheBalanced).activeMarkets "m1").isSome = true ∧
    snapZeroMid.midPrice = some (some 0) ∧
    calculateQuotes (stOf exCfg [] cacheBalanced) snapZeroMid exCfg Outcome.yes "m1" = [] := by
  refine ⟨by rfl, rfl, ?_⟩
  unfold calculateQuotes snapZeroMid
  simp

/-- C2 (amended): for every snapshot whose mid price is defined, non-NaN
and nonzero (the number 0 is falsy and yields no quotes), `calculateQuotes`
for an active market returns exactly one buy and one sell quote with
`bidPrice = mid − adjustedSpread/2` and `askPrice = mid + adjustedSpread/2`,
where `adjustedSpread = mid × adjustedSpreadBps / 10000` and
`adjustedSpreadBps = spreadBps × 1.5` if `|imbalance| > 0.3` else
`spreadBps`; in particular mid=0.50, spreadBps=50, imbalance=0 yields
bid=0.49875 / ask=0.50125, and imbalance=0.5 yields bid=0.498125 /
ask=0.501875. -/
theorem quote_prices_straddle_mid :
    (∀ (st : MMState) (snapshot : OrderbookSnapshot) (cfg : MarketMakerConfig)
      (o : Outcome) (mkt : String) (am : ActiveMarket) (m adjBps : ℚ),
      amGet st.activeMarkets mkt = some am →
      snapshot.midPrice = some (some m) → m ≠ 0 →
      adjBps = (if jsGt (jsAbs (getInventoryImbalance st.positions am.market.conditionId))
          (some (3 / 10)) then cfg.spreadBps * (3 / 2) else cfg.spreadBps) →
      ∃ bq sq, calculateQuotes st snapshot cfg o mkt = [bq, sq] ∧
        bq.side = Side.buy ∧ sq.side = Side.sell ∧
        bq.price = toFixed6 (m - m * adjBps / 10000 / 2) ∧
        sq.price = toFixed6 (m + m * adjBps / 10000 / 2)) ∧
    (calculateQuotes (stOf exCfg [] cacheBalanced) snapHalfMid exCfg Outcome.yes "m1").map
        (fun q => (q.side, q.price)) = [(Side.buy, 0.49875), (Side.sell, 0.50125)] ∧
    (calculateQuotes (stOf exCfg [] cacheHalf) snapHalfMid exCfg Outcome.yes "m1").map
        (fun q => (q.side, q.price)) = [(Side.buy, 0.498125), (Side.sell, 0.501875)] := by
  refine ⟨?_, ?_, ?_⟩
  · intro st snapshot cfg o mkt am m adjBps ham hmid hm hadj
    subst hadj
    simp only [calculateQuotes, hmid, ham]
    rw [if_neg hm]
    exact ⟨_, _, rfl, rfl, rfl, rfl, rfl⟩
  · simp +decide [stOf, exActive, exMarket, exCfg, cacheBalanced, buildPositions, posSet,
      posGet, getInventoryImbalance, getInventory, parseFloat, parseDigits, orZeroStr,
      jsMul, jsAdd, jsSub, jsDiv, jsEqZero, jsGt, jsLt, jsAbs, calculateQuotes, amGet,
      snapHalfMid, toFixed6]
    norm_num
  · simp +decide [stOf, exActive, exMarket, exCfg, cacheHalf, buildPositions, posSet,
      posGet, getInventoryImbalance, getInventory, parseFloat, parseDigits, orZeroStr,
      jsMul, jsAdd, jsSub, jsDiv, jsEqZero, jsGt, jsLt, jsAbs, calculateQuotes, amGet,
      snapHalfMid, toFixed6]
    norm_num [abs_of_pos]

/-- C2 witness: the general pricing law applied at the concrete Scenario A
state (mid 0.50, spreadBps 50, balanced inventory). -/
theorem quote_prices_straddle_mid_witness :
    ∃ bq sq,
      calculateQuotes (stOf exCfg [] cacheBalanced) snapHalfMid exCfg Outcome.yes "m1" =
        [bq, sq] ∧
      bq.side = Side.buy ∧ sq.side = Side.sell ∧
      bq.price = toFixed6 (1 / 2 - (1 / 2 : ℚ) * 50 / 10000 / 2) ∧
      sq.price = toFixed6 (1 / 2 + (1 / 2 : ℚ) * 50 / 10000 / 2) := by
  have h := quote_prices_straddle_mid.1 (stOf exCfg [] cacheBalanced) snapHalfMid exCfg
    Outcome.yes "m1" (exActive exCfg []) (1 / 2) 50 rfl rfl (by norm_num) ?_
  · exact h
  · simp +decide [stOf, exActive, exMarket, exCfg, cacheBalanced, buildPositions, posSet,
      posGet, getInventoryImbalance, getInventory, parseFloat, parseDigits, orZeroStr,
      jsMul, jsAdd, jsSub, jsDiv, jsEqZero, jsGt, jsAbs]
    norm_num

/-- C3: for every quoted snapshot (defined, non-NaN, nonzero mid — the
only case in which quotes exist), sizes start at
`baseSizeTokens = orderSizeUsd / mid` and are skewn with thresholds at
±0.2: outcome YES with imbalance > 0.2 gives buy×0.5 / sell×1.5, with
imbalance < −0.2 gives buy×1.5 / sell×0.5, and outcome NO inverts the
sign test; within ±0.2 both sizes stay at `baseSizeTokens`.  In
particular orderSizeUsd=10, mid=0.50, imbalance=0.5 gives YES sizes
buy=10 / sell=30 and NO sizes buy=30 / sell=10. -/
theorem quote_sizes_skewed_by_imbalance :
    (∀ (st : MMState) (snapshot : OrderbookSnapshot) (cfg : MarketMakerConfig)
      (o : Outcome) (mkt : String) (am : ActiveMarket) (m : ℚ),
      amGet st.activeMarkets mkt = some am →
      snapshot.midPrice = some (some m) → m ≠ 0 →
      ∃ bq sq, calculateQuotes st snapshot cfg o mkt = [bq, sq] ∧
        bq.side = Side.buy ∧ sq.side = Side.sell ∧
        bq.size = toFixed6
          (match o with
            | Outcome.yes =>
              if jsGt (getInventoryImbalance st.positions am.market.conditionId)
                  (some (1 / 5)) then cfg.orderSizeUsd / m * (1 / 2)
              else if jsLt (getInventoryImbalance st.positions am.market.conditionId)
                  (some (-(1 / 5))) then cfg.orderSizeUsd / m * (3 / 2)
              else cfg.orderSizeUsd / m
            | Outcome.no =>
              if jsLt (getInventoryImbalance st.positions am.market.conditionId)
                  (some (-(1 / 5))) then cfg.orderSizeUsd / m * (1 / 2)
              else if jsGt (getInventoryImbalance st.positions am.market.conditionId)
                  (some (1 / 5)) then cfg.orderSizeUsd / m * (3 / 2)
              else cfg.orderSizeUsd / m) ∧
        sq.size = toFixed6
          (match o with
            | Outcome.yes =>
              if jsGt (getInventoryImbalance st.positions am.market.conditionId)
                  (some (1 / 5)) then cfg.orderSizeUsd / m * (3 / 2)
              else if jsLt (getInventoryImbalance st.positions am.market.conditionId)
                  (some (-(1 / 5))) then cfg.orderSizeUsd / m * (1 / 2)
              else cfg.orderSizeUsd / m
            | Outcome.no =>
              if jsLt (getInventoryImbalance st.positions am.market.conditionId)
                  (some (-(1 / 5))) then cfg.orderSizeUsd / m * (3 / 2)
              else if jsGt (getInventoryImbalance st.positions am.market.conditionId)
                  (some (1 / 5)) then cfg.orderSizeUsd / m * (1 / 2)
              else cfg.orderSizeUsd / m)) ∧
    (calculateQuotes (stOf exCfg [] cacheHalf) snapHalfMid exCfg Outcome.yes "m1").map
        (fun q => (q.side, q.size)) = [(Side.buy, 10), (Side.sell, 30)] ∧
    (calculateQuotes (stOf exCfg [] cacheHalf) snapHalfMid exCfg Outcome.no "m1").map
        (fun q => (q.side, q.size)) = [(Side.buy, 30), (Side.sell, 10)] := by
  refine ⟨?_, ?_, ?_⟩
  · intro st snapshot cfg o mkt am m ham hmid hm
    simp only [calculateQuotes, hmid, ham]
    rw [if_neg hm]
    exact ⟨_, _, rfl, rfl, rfl, rfl, rfl⟩
  · simp +decide [stOf, exActive, exMarket, exCfg, cacheHalf, buildPositions, posSet,
      posGet, getInventoryImbalance, getInventory, parseFloat, parseDigits, orZeroStr,
      jsMul, jsAdd, jsSub, jsDiv, jsEqZero, jsGt, jsLt, jsAbs, calculateQuotes, amGet,
      snapHalfMid, toFixed6]
    norm_num [abs_of_pos]
  · simp +decide [stOf, exActive, exMarket, exCfg, cacheHalf, buildPositions, posSet,
      posGet, getInventoryImbalance, getInventory, parseFloat, parseDigits, orZeroStr,
      jsMul, jsAdd, jsSub, jsDiv, jsEqZero, jsGt, jsLt, jsAbs, calculateQuotes, amGet,
      snapHalfMid, toFixed6]
    norm_num [abs_of_pos]

/-- C3 witness: the general size law applied at the concrete Scenario C
state (orderSizeUsd=10, mid=0.50, imbalance=0.5, outcome YES). -/
theorem quote_sizes_skewed_by_imbalance_witness :
    ∃ bq sq,
      calculateQuotes (stOf exCfg [] cacheHalf) snapHalfMid exCfg Outcome.yes "m1" =
        [bq, sq] ∧
      bq.side = Side.buy ∧ sq.side = Side.sell ∧
      bq.size = toFixed6
        (if jsGt (getInventoryImbalance cacheHalf "c1") (some (1 / 5)) then
            (10 : ℚ) / (1 / 2) * (1 / 2)
          else if jsLt (getInventoryImbalance cacheHalf "c1") (some (-(1 / 5))) then
            (10 : ℚ) / (1 / 2) * (3 / 2)
          else (10 : ℚ) / (1 / 2)) ∧
      sq.size = toFixed6
        (if jsGt (getInventoryImbalance cacheHalf "c1") (some (1 / 5)) then
            (10 : ℚ) / (1 / 2) * (3 / 2)
          else if jsLt (getInventoryImbalance cacheHalf "c1") (some (-(1 / 5))) then
            (10 : ℚ) / (1 / 2) * (1 / 2)
          else (10 : ℚ) / (1 / 2)) :=
  quote_sizes_skewed_by_imbalance.1 (stOf exCfg [] cacheHalf) snapHalfMid exCfg
    Outcome.yes "m1" (exActive exCfg []) (1 / 2) rfl rfl (by norm_num)

/-- The `netExposure` field is `yesValue − noValue` by construction. -/
theorem getInventory_netExposure (m : PosMap) (cid : String) :
    (getInventory m cid).netExposure =
      jsSub (getInventory m cid).yesValue (getInventory m cid).noValue := by
  unfold getInventory
  rfl

/-- C1 counterexample: a balanced cache (both outcome values 1) has
imbalance 0 even though its total value is 2 ≠ 0, refuting "equals 0
exactly when the total value is 0"; and a cache whose NO leg has negative
size (value −1 against YES value 3) has imbalance 2 ∉ [−1, 1], refuting
the claimed range for arbitrary cached position sets. -/
theorem imbalance_claim_false_at_balanced_and_short :
    getInventoryImbalance cacheBalanced "c1" = some 0 ∧
    jsAdd (getInventory cacheBalanced "c1").yesValue
      (getInventory cacheBalanced "c1").noValue = some 2 ∧
    getInventoryImbalance cacheShortNo "c1" = some 2 := by
  refine ⟨?_, ?_, ?_⟩ <;>
      simp +decide [cacheBalanced, cacheShortNo, buildPositions, posSet, posGet,
        getInventoryImbalance, getInventory, parseFloat, parseDigits, orZeroStr,
        jsMul, jsAdd, jsSub, jsDiv, jsEqZero] <;>
    norm_num

/-- C1 (amended): whenever the two outcome values of a condition are
(non-NaN) nonnegative numbers, the imbalance ratio is a number in
[−1, 1]; it equals 0 whenever the total value is 0, and also whenever the
two values are equal — so zero imbalance does not imply zero total
value. -/
theorem imbalance_bounded_for_nonneg_values (m : PosMap) (cid : String) (y n : ℚ)
    (hy : (getInventory m cid).yesValue = some y)
    (hn : (getInventory m cid).noValue = some n)
    (hy0 : 0 ≤ y) (hn0 : 0 ≤ n) :
    ∃ r, getInventoryImbalance m cid = some r ∧ -1 ≤ r ∧ r ≤ 1 ∧
      (y + n = 0 → r = 0) ∧ (y = n → r = 0) := by
  have hnet := getInventory_netExposure m cid
  rw [hy, hn] at hnet
  simp only [getInventoryImbalance]
  rw [hnet, hy, hn]
  simp only [jsAdd, jsSub, jsEqZero, jsDiv]
  by_cases h0 : y + n = 0
  · simp [h0]
  · have hpos : 0 < y + n := lt_of_le_of_ne (by positivity) (Ne.symm h0)
    refine ⟨(y - n) / (y + n), by simp [h0], ?_, ?_, fun h => absurd h h0, ?_⟩
    · rw [neg_le, ← neg_div]
      rw [div_le_one hpos]
      linarith
    · rw [div_le_one hpos]
      linarith
    · intro h
      rw [h]
      simp

/-- C1 witness: the bound applied at the balanced cache (values 1 and 1):
the ratio is 0 with total value 2. -/
theorem imbalance_bounded_for_nonneg_values_witness :
    ∃ r, getInventoryImbalance cacheBalanced "c1" = some r ∧ -1 ≤ r ∧ r ≤ 1 ∧
      ((1 : ℚ) + 1 = 0 → r = 0) ∧ ((1 : ℚ) = 1 → r = 0) :=
  imbalance_bounded_for_nonneg_values cacheBalanced "c1" 1 1
    (by simp +decide [cacheBalanced, buildPositions, posSet, posGet, getInventory,
      parseFloat, parseDigits, orZeroStr, jsMul])
    (by simp +decide [cacheBalanced, buildPositions, posSet, posGet, getInventory,
      parseFloat, parseDigits, orZeroStr, jsMul])
    (by norm_num) (by norm_num)

/-- C4 (code bug): `PolymarketClient.getPositions` catches a failed
positions request and resolves with `[]`, so
`InventoryManager.updateInventory` never reaches its own catch branch on a
fetch failure; instead it clears the cache and inserts nothing.  A failed
fetch therefore replaces a nonempty cache with the empty one — the cache
is not left intact. -/
theorem fetch_failure_empties_cache :
    updateInventory (Except.error "network error") cacheBalanced = [] ∧
    cacheBalanced ≠ [] := by
  constructor
  · rfl
  · simp +decide [cacheBalanced, buildPositions, posSet]

/-- C8 counterexample: an override that provides `spreadBps = 0` is not
used — the merge `customConfig?.spreadBps || defaults` treats 0 as falsy
and falls back to the process default 50, refuting "uses the override's
value for each field that the override provides". -/
theorem override_zero_ignored :
    (buildMarketConfig (some ⟨some 0, none, none, none⟩)
      ⟨50, 10, 100, 3 / 5⟩).spreadBps = 50 ∧ (50 : ℚ) ≠ 0 := by
  constructor
  · rfl
  · norm_num

/-- C8 (amended): the session configuration uses the override's value for
each of the four fields that the override provides with a nonzero value;
a field that is omitted — or provided as 0, which the `||` merge treats
as falsy — falls back to the process-wide strategy default. -/
theorem session_config_merges_overrides (c : ConfigOverride) (s : StrategyDefaults) :
    ((∀ v : ℚ, c.spreadBps = some v → v ≠ 0 →
        (buildMarketConfig (some c) s).spreadBps = v) ∧
      (c.spreadBps = none ∨ c.spreadBps = some 0 →
        (buildMarketConfig (some c) s).spreadBps = s.defaultSpreadBps)) ∧
    ((∀ v : ℚ, c.orderSizeUsd = some v → v ≠ 0 →
        (buildMarketConfig (some c) s).orderSizeUsd = v) ∧
      (c.orderSizeUsd = none ∨ c.orderSizeUsd = some 0 →
        (buildMarketConfig (some c) s).orderSizeUsd = s.defaultOrderSizeUsd)) ∧
    ((∀ v : ℚ, c.maxPositionSizeUsd = some v → v ≠ 0 →
        (buildMarketConfig (some c) s).maxPositionSizeUsd = v) ∧
      (c.maxPositionSizeUsd = none ∨ c.maxPositionSizeUsd = some 0 →
        (buildMarketConfig (some c) s).maxPositionSizeUsd = s.maxPositionSizeUsd)) ∧
    ((∀ v : ℚ, c.maxInventoryImbalance = some v → v ≠ 0 →
        (buildMarketConfig (some c) s).maxInventoryImbalance = v) ∧
      (c.maxInventoryImbalance = none ∨ c.maxInventoryImbalance = some 0 →
        (buildMarketConfig (some c) s).maxInventoryImbalance = s.maxInventoryImbalance)) := by
  refine ⟨⟨?_, ?_⟩, ⟨?_, ?_⟩, ⟨?_, ?_⟩, ⟨?_, ?_⟩⟩ <;>
    first
    | (intro v hv hv0
       simp [buildMarketConfig, orFalsy, hv, hv0])
    | (rintro (h | h) <;> simp [buildMarketConfig, orFalsy, h])

/-- C8 witness: an override providing spreadBps=75 and orderSizeUsd=0,
omitting the rest, yields 75, the defaulted order size, and the two
defaulted limits. -/
theorem session_config_merges_overrides_witness :
    (buildMarketConfig (some ⟨some 75, some 0, none, none⟩)
        ⟨50, 10, 100, 3 / 5⟩).spreadBps = 75 ∧
    (buildMarketConfig (some ⟨some 75, some 0, none, none⟩)
        ⟨50, 10, 100, 3 / 5⟩).orderSizeUsd = 10 ∧
    (buildMarketConfig (some ⟨some 75, some 0, none, none⟩)
        ⟨50, 10, 100, 3 / 5⟩).maxPositionSizeUsd = 100 :=
  ⟨(session_config_merges_overrides ⟨some 75, some 0, none, none⟩
      ⟨50, 10, 100, 3 / 5⟩).1.1 75 rfl (by norm_num),
    (session_config_merges_overrides ⟨some 75, some 0, none, none⟩
      ⟨50, 10, 100, 3 / 5⟩).2.1.2 (Or.inr rfl),
    (session_config_merges_overrides ⟨some 75, some 0, none, none⟩
      ⟨50, 10, 100, 3 / 5⟩).2.2.1.2 (Or.inl rfl)⟩

/-- C7: whenever the risk gate denies a refresh, `updateQuotes` returns
before the cancel/place sequence: it issues no cancellation and no
placement effect and leaves the whole state — in particular the session's
outstanding-orders set — exactly as it was. -/
theorem risk_denied_refresh_is_noop (risk : RiskConfig) (st : MMState) (mkt : String)
    (oracle : List (Option String)) (now : ℤ)
    (h : checkRiskLimits risk st mkt = false) :
    updateQuotes risk st mkt oracle now = (st, []) := by
  unfold updateQuotes
  cases ham : amGet st.activeMarkets mkt with
  | none => rfl
  | some am => simp [h]

/-- C7 witness: maxInventoryImbalance = 0.6 and cached positions with
imbalance 0.65 make `checkRiskLimits` return false, and the refresh — with
one outstanding order and an oracle that would accept a placement — leaves
the state unchanged and issues no effect. -/
theorem risk_denied_refresh_is_noop_witness :
    checkRiskLimits ⟨1000, true⟩ (stOf exCfg ["o1"] cacheSkewed) "m1" = false ∧
    updateQuotes ⟨1000, true⟩ (stOf exCfg ["o1"] cacheSkewed) "m1" [some "n1"] 5 =
      (stOf exCfg ["o1"] cacheSkewed, []) := by
  have h : checkRiskLimits ⟨1000, true⟩ (stOf exCfg ["o1"] cacheSkewed) "m1" = false := by
    simp +decide [checkRiskLimits, stOf, exActive, exMarket, exCfg, cacheSkewed,
      buildPositions, posSet, posGet, getInventoryImbalance, getInventory, getAllPositions,
      parseFloat, parseDigits, orZeroStr, jsMul, jsAdd, jsSub, jsDiv, jsEqZero, jsGt, jsAbs,
      amGet]
    norm_num [abs_of_pos]
  exact ⟨h, risk_denied_refresh_is_noop ⟨1000, true⟩ (stOf exCfg ["o1"] cacheSkewed)
    "m1" [some "n1"] 5 h⟩

/-! ## Registry lemmas for the subscription claim -/

theorem regGet_regSet_same (r : CallbackRegistry) (k : String) (v : List ℕ) :
    regGet (regSet r k v) k = v := by
  induction r with
  | nil => simp [regSet, regGet, List.find?]
  | cons e t ih =>
    by_cases h : e.1 = k
    · simp [regSet, h, regGet, List.find?]
    · simpa [regSet, h, regGet, List.find?] using ih

theorem regHas_regSet_same (r : CallbackRegistry) (k : String) (v : List ℕ) :
    regHas (regSet r k v) k = true := by
  induction r with
  | nil => simp [regSet, regHas, List.find?]
  | cons e t ih =>
    by_cases h : e.1 = k
    · simp [regSet, h, regHas, List.find?]
    · simpa [regSet, h, regHas, List.find?] using ih

theorem regGet_of_not_has (r : CallbackRegistry) (k : String) (h : ¬regHas r k = true) :
    regGet r k = [] := by
  unfold regHas at h
  unfold regGet
  cases hf : r.find? (fun e => e.1 = k) with
  | none => rfl
  | some e => rw [hf] at h; simp at h

theorem regGet_subscribeFn (r : CallbackRegistry) (tid : String) (cb : ℕ) :
    regGet (subscribeFn r tid cb) tid = setAdd (regGet r tid) cb := by
  unfold subscribeFn
  by_cases h : regHas r tid = true
  · simp [h, regGet_regSet_same]
  · simp [h, regGet_regSet_same, regGet_of_not_has r tid h]

theorem regHas_subscribeFn (r : CallbackRegistry) (tid : String) (cb : ℕ) :
    regHas (subscribeFn r tid cb) tid = true := by
  unfold subscribeFn
  by_cases h : regHas r tid = true <;> simp [h, regHas_regSet_same]

theorem regGet_unsubscribe_subscribe (r : CallbackRegistry) (tid : String) (cb : ℕ) :
    regGet (unsubscribeFn (subscribeFn r tid cb) tid cb) tid =
      setDelete (setAdd (regGet r tid) cb) cb := by
  unfold unsubscribeFn
  simp [regHas_subscribeFn, regGet_regSet_same, regGet_subscribeFn]

theorem count_setDelete_ne (s : List ℕ) (c cb : ℕ) (h : c ≠ cb) :
    (setDelete s cb).count c = s.count c := by
  induction s with
  | nil => rfl
  | cons a t ih =>
    by_cases ha : a = cb
    · subst ha
      simp [setDelete, List.count_cons, Ne.symm h] at ih ⊢
      exact ih
    · simp [setDelete, List.count_cons, ha] at ih ⊢
      omega

theorem count_setAdd_ne (s : List ℕ) (c cb : ℕ) (h : c ≠ cb) :
    (setAdd s cb).count c = s.count c := by
  unfold setAdd
  by_cases hm : cb ∈ s
  · simp [hm]
  · simp [hm, List.count_append, List.count_cons, h]

theorem mem_of_mem_setAdd_ne (s : List ℕ) (c cb : ℕ) (h : c ≠ cb)
    (hm : c ∈ setAdd s cb) : c ∈ s := by
  unfold setAdd at hm
  by_cases hcb : cb ∈ s
  · simpa [hcb] using hm
  · simp [hcb] at hm
    rcases hm with hm | hm
    · exact hm
    · exact absurd hm h

/-- C9: the unsubscribe closure returned by `subscribe` removes exactly
the one registration it was returned from: after invoking it, that
callback no longer fires on an ingest for the instrument, while every
other callback registered for the same instrument still fires exactly
once per ingest. -/
theorem unsubscribe_removes_exactly_one (snaps : SnapshotMap) (r : CallbackRegistry)
    (tid : String) (cb : ℕ) (ob : Orderbook) (h : (regGet r tid).Nodup) :
    cb ∉ (ingest ⟨snaps, unsubscribeFn (subscribeFn r tid cb) tid cb⟩ tid ob).2 ∧
    ∀ c ∈ regGet (subscribeFn r tid cb) tid, c ≠ cb →
      ((ingest ⟨snaps, unsubscribeFn (subscribeFn r tid cb) tid cb⟩ tid ob).2).count c = 1 := by
  have hfired : (ingest ⟨snaps, unsubscribeFn (subscribeFn r tid cb) tid cb⟩ tid ob).2 =
      setDelete (setAdd (regGet r tid) cb) cb := by
    simpa [ingest] using regGet_unsubscribe_subscribe r tid cb
  constructor
  · rw [hfired]
    simp [setDelete, List.mem_filter]
  · intro c hc hne
    rw [hfired, count_setDelete_ne _ _ _ hne, count_setAdd_ne _ _ _ hne]
    rw [regGet_subscribeFn] at hc
    have hcs : c ∈ regGet r tid := mem_of_mem_setAdd_ne _ _ _ hne hc
    exact List.count_eq_one_of_mem h hcs

/-- A registry holding the single independent callback 2 for token tY. -/
def regEx : CallbackRegistry := subscribeFn [] "tY" 2

/-- A small well-formed orderbook used to drive concrete ingests. -/
def obEx : Orderbook := ⟨[RawLevel.str "0.45"], [RawLevel.str "0.55"]⟩

/-- C9 witness: subscribing callback 1 next to the independent callback 2
and then invoking callback 1's unsubscribe closure leaves an ingest firing
callback 2 exactly once and callback 1 not at all. -/
theorem unsubscribe_removes_exactly_one_witness :
    1 ∉ (ingest ⟨[], unsubscribeFn (subscribeFn regEx "tY" 1) "tY" 1⟩ "tY" obEx).2 ∧
    ((ingest ⟨[], unsubscribeFn (subscribeFn regEx "tY" 1) "tY" 1⟩ "tY" obEx).2).count 2 = 1 := by
  have h := unsubscribe_removes_exactly_one [] regEx "tY" 1 obEx
    (by simp [regEx, subscribeFn, regHas, regGet, regSet, setAdd, List.find?])
  refine ⟨h.1, h.2 2 ?_ (by decide)⟩
  simp [regEx, subscribeFn, regHas, regGet, regSet, setAdd, List.find?]

/-! ## Snapshot-derivation lemmas -/

theorem snapGet_snapSet_same (m : SnapshotMap) (k : String) (v : OrderbookSnapshot) :
    snapGet (snapSet m k v) k = some v := by
  induction m with
  | nil => simp [snapSet, snapGet, List.find?]
  | cons e t ih =>
    by_cases h : e.1 = k
    · simp [snapSet, h, snapGet, List.find?]
    · simpa [snapSet, h, snapGet, List.find?] using ih

theorem truthyOpt_iff (o : Option JsNum) :
    truthyOpt o = true ↔ ∃ q : ℚ, o = some (some q) ∧ q ≠ 0 := by
  cases o with
  | none => simp [truthyOpt]
  | some n =>
    cases n with
    | none => simp [truthyOpt, truthy]
    | some q => simp [truthyOpt, truthy]

theorem mkSnapshot_bestBid (tid : String) (ob : Orderbook) :
    (mkSnapshot tid ob).bestBid = getBestBid ob := rfl

theorem mkSnapshot_bestAsk (tid : String) (ob : Orderbook) :
    (mkSnapshot tid ob).bestAsk = getBestAsk ob := rfl

theorem mkSnapshot_midPrice (tid : String) (ob : Orderbook) :
    (mkSnapshot tid ob).midPrice =
      if truthyOpt (getBestBid ob) && truthyOpt (getBestAsk ob) then
        some (jsDiv (jsAdd ((getBestBid ob).getD none) ((getBestAsk ob).getD none)) (some 2))
      else none := rfl

theorem mkSnapshot_spread (tid : String) (ob : Orderbook) :
    (mkSnapshot tid ob).spread =
      if truthyOpt (getBestBid ob) && truthyOpt (getBestAsk ob) then
        some (jsSub ((getBestAsk ob).getD none) ((getBestBid ob).getD none))
      else none := rfl

/-- C6 counterexample: an orderbook whose best bid parses to the number 0
(with best ask 0.5) has both best prices defined, yet the stored mid price
is undefined — the `bestBid && bestAsk` guard treats the number 0 as
falsy, refuting "mid is defined iff both bestBid and bestAsk are
defined". -/
theorem mid_defined_iff_claim_false :
    (mkSnapshot "t" ⟨[RawLevel.str "0"], [RawLevel.str "0.5"]⟩).bestBid = some (some 0) ∧
    (mkSnapshot "t" ⟨[RawLevel.str "0"], [RawLevel.str "0.5"]⟩).bestAsk =
      some (some (1 / 2)) ∧
    (mkSnapshot "t" ⟨[RawLevel.str "0"], [RawLevel.str "0.5"]⟩).midPrice = none := by
  refine ⟨?_, ?_, ?_⟩ <;>
    · simp +decide [mkSnapshot, getBestBid, getBestAsk, levelPrice, parseFloat,
        parseDigits, truthyOpt, truthy, jsAdd, jsDiv, jsSub]
      try norm_num

/-- C6 (amended): for every ingested orderbook the stored snapshot is the
derived one, its mid price is defined iff both best prices are defined,
non-NaN and nonzero (the truthiness guard, not mere definedness), and when
defined mid equals `(bestBid + bestAsk) / 2` and spread equals
`bestAsk − bestBid`; spread is defined only under the same condition, so
in particular only when both best prices are defined. -/
theorem mid_is_mean_when_both_truthy (snaps : SnapshotMap) (r : CallbackRegistry)
    (tid : String) (ob : Orderbook) :
    snapGet (ingest ⟨snaps, r⟩ tid ob).1.snapshots tid = some (mkSnapshot tid ob) ∧
    ((mkSnapshot tid ob).midPrice ≠ none ↔
      (∃ b : ℚ, (mkSnapshot tid ob).bestBid = some (some b) ∧ b ≠ 0) ∧
      (∃ a : ℚ, (mkSnapshot tid ob).bestAsk = some (some a) ∧ a ≠ 0)) ∧
    (∀ b a : ℚ, (mkSnapshot tid ob).bestBid = some (some b) → b ≠ 0 →
      (mkSnapshot tid ob).bestAsk = some (some a) → a ≠ 0 →
      (mkSnapshot tid ob).midPrice = some (some ((b + a) / 2)) ∧
      (mkSnapshot tid ob).spread = some (some (a - b))) ∧
    ((mkSnapshot tid ob).spread ≠ none →
      (mkSnapshot tid ob).bestBid ≠ none ∧ (mkSnapshot tid ob).bestAsk ≠ none) := by
  refine ⟨?_, ?_, ?_, ?_⟩
  · simp [ingest, snapGet_snapSet_same]
  · rw [mkSnapshot_midPrice, mkSnapshot_bestBid, mkSnapshot_bestAsk]
    constructor
    · intro hmid
      by_cases hbb : truthyOpt (getBestBid ob) = true
      · by_cases hba : truthyOpt (getBestAsk ob) = true
        · exact ⟨(truthyOpt_iff _).mp hbb, (truthyOpt_iff _).mp hba⟩
        · rw [Bool.not_eq_true] at hba
          rw [hbb, hba] at hmid
          simp at hmid
      · rw [Bool.not_eq_true] at hbb
        rw [hbb] at hmid
        simp at hmid
    · rintro ⟨hb, ha⟩
      have hbb := (truthyOpt_iff (getBestBid ob)).mpr hb
      have hba := (truthyOpt_iff (getBestAsk ob)).mpr ha
      rw [hbb, hba]
      simp
  · intro b a hb hb0 ha ha0
    rw [mkSnapshot_bestBid] at hb
    rw [mkSnapshot_bestAsk] at ha
    have hbb : truthyOpt (getBestBid ob) = true := (truthyOpt_iff _).mpr ⟨b, hb, hb0⟩
    have hba : truthyOpt (getBestAsk ob) = true := (truthyOpt_iff _).mpr ⟨a, ha, ha0⟩
    rw [mkSnapshot_midPrice, mkSnapshot_spread, hbb, hba]
    rw [hb, ha]
    simp [jsAdd, jsDiv, jsSub]
  · rw [mkSnapshot_spread, mkSnapshot_bestBid, mkSnapshot_bestAsk]
    by_cases hbb : truthyOpt (getBestBid ob) = true
    · by_cases hba : truthyOpt (getBestAsk ob) = true
      · intro _
        obtain ⟨b, hb, _⟩ := (truthyOpt_iff _).mp hbb
        obtain ⟨a, ha, _⟩ := (truthyOpt_iff _).mp hba
        rw [hb, ha]
        simp
      · rw [Bool.not_eq_true] at hba
        rw [hba]
        simp
    · rw [Bool.not_eq_true] at hbb
      rw [hbb]
      simp

/-- C6 witness: ingesting the orderbook with bids parsing to 0.45 and asks
to 0.55 stores a snapshot whose mid is 0.50 and spread 0.10. -/
theorem mid_is_mean_when_both_truthy_witness :
    (mkSnapshot "tY" obEx).midPrice = some (some (((9 : ℚ) / 20 + 11 / 20) / 2)) ∧
    (mkSnapshot "tY" obEx).spread = some (some ((11 : ℚ) / 20 - 9 / 20)) := by
  have h := (mid_is_mean_when_both_truthy [] [] "tY" obEx).2.2.1 (9 / 20) (11 / 20)
    (by simp +decide [obEx, mkSnapshot, getBestBid, levelPrice, parseFloat, parseDigits]
        norm_num)
    (by norm_num)
    (by simp +decide [obEx, mkSnapshot, getBestAsk, levelPrice, parseFloat, parseDigits]
        norm_num)
    (by norm_num)
  exact h

/-! ## Fold lemmas for best-price extraction -/

theorem jsMax_none_left (p : JsNum) : jsMax none p = none := by cases p <;> rfl

theorem jsMax_none_right (p : JsNum) : jsMax p none = none := by cases p <;> rfl

theorem jsMin_none_left (p : JsNum) : jsMin none p = none := by cases p <;> rfl

theorem jsMin_none_right (p : JsNum) : jsMin p none = none := by cases p <;> rfl

theorem foldl_jsMax_none_init (ps : List JsNum) : ps.foldl jsMax none = none := by
  induction ps with
  | nil => rfl
  | cons q t ih => rw [List.foldl_cons, jsMax_none_left]; exact ih

theorem foldl_jsMin_none_init (ps : List JsNum) : ps.foldl jsMin none = none := by
  induction ps with
  | nil => rfl
  | cons q t ih => rw [List.foldl_cons, jsMin_none_left]; exact ih

theorem foldl_jsMax_of_none_mem (ps : List JsNum) (p : JsNum) (h : none ∈ ps) :
    ps.foldl jsMax p = none := by
  induction ps generalizing p with
  | nil => cases h
  | cons q t ih =>
    rcases List.mem_cons.mp h with hq | ht
    · rw [List.foldl_cons, ← hq, jsMax_none_right]
      exact foldl_jsMax_none_init t
    · rw [List.foldl_cons]
      exact ih _ ht

theorem foldl_jsMin_of_none_mem (ps : List JsNum) (p : JsNum) (h : none ∈ ps) :
    ps.foldl jsMin p = none := by
  induction ps generalizing p with
  | nil => cases h
  | cons q t ih =>
    rcases List.mem_cons.mp h with hq | ht
    · rw [List.foldl_cons, ← hq, jsMin_none_right]
      exact foldl_jsMin_none_init t
    · rw [List.foldl_cons]
      exact ih _ ht

theorem foldl_jsMax_of_all_some (ps : List JsNum) (x : ℚ)
    (hps : ∀ q ∈ ps, q.isSome = true) :
    ∃ m : ℚ, ps.foldl jsMax (some x) = some m ∧ (m = x ∨ some m ∈ ps) ∧ x ≤ m ∧
      ∀ q ∈ ps, ∀ y : ℚ, q = some y → y ≤ m := by
  induction ps generalizing x with
  | nil => exact ⟨x, rfl, Or.inl rfl, le_refl x, by simp⟩
  | cons q t ih =>
    obtain ⟨y, hy⟩ := Option.isSome_iff_exists.mp (hps q (List.mem_cons_self q t))
    obtain ⟨m, hm, hmem, hle, hall⟩ :=
      ih (max x y) (fun p hp => hps p (List.mem_cons_of_mem _ hp))
    refine ⟨m, ?_, ?_, le_trans (le_max_left x y) hle, ?_⟩
    · rw [List.foldl_cons, hy]
      simpa [jsMax] using hm
    · rcases hmem with hmx | hmt
      · rcases max_choice x y with hxy | hxy
        · exact Or.inl (hmx.trans hxy)
        · refine Or.inr ?_
          have hmy : m = y := hmx.trans hxy
          rw [hmy, ← hy]
          exact List.mem_cons_self q t
      · exact Or.inr (List.mem_cons_of_mem _ hmt)
    · intro p hp z hz
      rcases List.mem_cons.mp hp with hph | hpt
      · rw [hph, hy] at hz
        have hzy : z = y := by injection hz.symm
        rw [hzy]
        exact le_trans (le_max_right x y) hle
      · exact hall p hpt z hz

theorem foldl_jsMin_of_all_some (ps : List JsNum) (x : ℚ)
    (hps : ∀ q ∈ ps, q.isSome = true) :
    ∃ m : ℚ, ps.foldl jsMin (some x) = some m ∧ (m = x ∨ some m ∈ ps) ∧ m ≤ x ∧
      ∀ q ∈ ps, ∀ y : ℚ, q = some y → m ≤ y := by
  induction ps generalizing x with
  | nil => exact ⟨x, rfl, Or.inl rfl, le_refl x, by simp⟩
  | cons q t ih =>
    obtain ⟨y, hy⟩ := Option.isSome_iff_exists.mp (hps q (List.mem_cons_self q t))
    obtain ⟨m, hm, hmem, hle, hall⟩ :=
      ih (min x y) (fun p hp => hps p (List.mem_cons_of_mem _ hp))
    refine ⟨m, ?_, ?_, le_trans hle (min_le_left x y), ?_⟩
    · rw [List.foldl_cons, hy]
      simpa [jsMin] using hm
    · rcases hmem with hmx | hmt
      · rcases min_choice x y with hxy | hxy
        · exact Or.inl (hmx.trans hxy)
        · refine Or.inr ?_
          have hmy : m = y := hmx.trans hxy
          rw [hmy, ← hy]
          exact List.mem_cons_self q t
      · exact Or.inr (List.mem_cons_of_mem _ hmt)
    · intro p hp z hz
      rcases List.mem_cons.mp hp with hph | hpt
      · rw [hph, hy] at hz
        have hzy : z = y := by injection hz.symm
        rw [hzy]
        exact le_trans hle (min_le_right x y)
      · exact hall p hpt z hz

/-- C5 counterexample: with bid levels `"abc"` and `"0.5"` the unparsable
level is not excluded — its NaN propagates through `Math.max`, so
`getBestBid` is NaN rather than the maximum 0.5 of the prices that parse,
refuting "unparsable levels are excluded from the max computation". -/
theorem best_bid_claim_false_on_unparsable :
    getBestBid ⟨[RawLevel.str "abc", RawLevel.str "0.5"], []⟩ = some none ∧
    levelPrice (RawLevel.str "0.5") = some (1 / 2) ∧
    (some none : Option JsNum) ≠ some (some (1 / 2)) := by
  refine ⟨?_, ?_, by simp⟩
  · simp +decide [getBestBid, levelPrice, parseFloat, parseDigits, jsMax]
  · simp +decide [levelPrice, parseFloat, parseDigits]
    norm_num

/-- C5 (amended): empty level lists yield undefined (never zero or an
exception); for a non-empty bid list in which every level (tuple, object
or bare string) parses, `bestBid` is the maximum of the parsed prices, and
symmetrically `bestAsk` is the minimum for asks; but a level that fails to
parse is not excluded — its NaN propagates and makes the result NaN. -/
theorem best_prices_are_max_min_of_parsed (ob : Orderbook) :
    (ob.bids = [] → getBestBid ob = none) ∧
    (ob.asks = [] → getBestAsk ob = none) ∧
    (∀ l₀ ls, ob.bids = l₀ :: ls → (∀ l ∈ ob.bids, (levelPrice l).isSome = true) →
      ∃ m : ℚ, getBestBid ob = some (some m) ∧ some m ∈ ob.bids.map levelPrice ∧
        ∀ l ∈ ob.bids, ∀ y : ℚ, levelPrice l = some y → y ≤ m) ∧
    ((∃ l ∈ ob.bids, levelPrice l = none) → getBestBid ob = some none) ∧
    (∀ l₀ ls, ob.asks = l₀ :: ls → (∀ l ∈ ob.asks, (levelPrice l).isSome = true) →
      ∃ m : ℚ, getBestAsk ob = some (some m) ∧ some m ∈ ob.asks.map levelPrice ∧
        ∀ l ∈ ob.asks, ∀ y : ℚ, levelPrice l = some y → m ≤ y) ∧
    ((∃ l ∈ ob.asks, levelPrice l = none) → getBestAsk ob = some none) := by
  refine ⟨?_, ?_, ?_, ?_, ?_, ?_⟩
  · intro h
    simp [getBestBid, h]
  · intro h
    simp [getBestAsk, h]
  · intro l₀ ls hb hall
    obtain ⟨x, hx⟩ := Option.isSome_iff_exists.mp (hall l₀ (hb ▸ List.mem_cons_self l₀ ls))
    have hsome : ∀ q ∈ ls.map levelPrice, q.isSome = true := by
      intro q hq
      obtain ⟨l, hl, rfl⟩ := List.mem_map.mp hq
      exact hall l (hb ▸ List.mem_cons_of_mem _ hl)
    obtain ⟨m, hm, hmem, _, hbound⟩ := foldl_jsMax_of_all_some (ls.map levelPrice) x hsome
    refine ⟨m, ?_, ?_, ?_⟩
    · unfold getBestBid
      rw [hb, List.map_cons, hx]
      exact congrArg some hm
    · rw [hb, List.map_cons]
      rcases hmem with hmx | hmt
      · rw [hmx, ← hx]
        exact List.mem_cons_self _ _
      · exact List.mem_cons_of_mem _ hmt
    · intro l hl y hy
      rw [hb] at hl
      rcases List.mem_cons.mp hl with rfl | hlt
      · rw [hx] at hy
        have hyx : y = x := by injection hy.symm
        rw [hyx]
        obtain ⟨m', hm', _, hxle, _⟩ := foldl_jsMax_of_all_some (ls.map levelPrice) x hsome
        rw [hm'] at hm
        have : m' = m := by injection hm
        exact this ▸ hxle
      · exact hbound (levelPrice l) (List.mem_map_of_mem levelPrice hlt) y hy
  · intro ⟨l, hl, hnone⟩
    rcases hbids : ob.bids with _ | ⟨b, bs⟩
    · rw [hbids] at hl
      cases hl
    · unfold getBestBid
      rw [hbids, List.map_cons]
      rw [hbids] at hl
      rcases List.mem_cons.mp hl with rfl | hlt
      · rw [hnone]
        show some (List.foldl jsMax none (List.map levelPrice bs)) = some none
        rw [foldl_jsMax_none_init]
      · exact congrArg some (foldl_jsMax_of_none_mem _ _
          (hnone ▸ List.mem_map_of_mem levelPrice hlt))
  · intro l₀ ls hb hall
    obtain ⟨x, hx⟩ := Option.isSome_iff_exists.mp (hall l₀ (hb ▸ List.mem_cons_self l₀ ls))
    have hsome : ∀ q ∈ ls.map levelPrice, q.isSome = true := by
      intro q hq
      obtain ⟨l, hl, rfl⟩ := List.mem_map.mp hq
      exact hall l (hb ▸ List.mem_cons_of_mem _ hl)
    obtain ⟨m, hm, hmem, _, hbound⟩ := foldl_jsMin_of_all_some (ls.map levelPrice) x hsome
    refine ⟨m, ?_, ?_, ?_⟩
    · unfold getBestAsk
      rw [hb, List.map_cons, hx]
      exact congrArg some hm
    · rw [hb, List.map_cons]
      rcases hmem with hmx | hmt
      · rw [hmx, ← hx]
        exact List.mem_cons_self _ _
      · exact List.mem_cons_of_mem _ hmt
    · intro l hl y hy
      rw [hb] at hl
      rcases List.mem_cons.mp hl with rfl | hlt
      · rw [hx] at hy
        have hyx : y = x := by injection hy.symm
        rw [hyx]
        obtain ⟨m', hm', _, hxle, _⟩ := foldl_jsMin_of_all_some (ls.map levelPrice) x hsome
        rw [hm'] at hm
        have : m' = m := by injection hm
        exact this ▸ hxle
      · exact hbound (levelPrice l) (List.mem_map_of_mem levelPrice hlt) y hy
  · intro ⟨l, hl, hnone⟩
    rcases hasks : ob.asks with _ | ⟨a, as⟩
    · rw [hasks] at hl
      cases hl
    · unfold getBestAsk
      rw [hasks, List.map_cons]
      rw [hasks] at hl
      rcases List.mem_cons.mp hl with rfl | hlt
      · rw [hnone]
        show some (List.foldl jsMin none (List.map levelPrice as)) = some none
        rw [foldl_jsMin_none_init]
      · exact congrArg some (foldl_jsMin_of_none_mem _ _
          (hnone ▸ List.mem_map_of_mem levelPrice hlt))

/-- An orderbook exercising all three level representations: bids as a
bare string (0.4), a tuple (0.45) and an object (0.42); asks symmetric. -/
def obThreeForms : Orderbook :=
  ⟨[RawLevel.str "0.4", RawLevel.arr ["0.45", "100"], RawLevel.obj "0.42" "5"],
    [RawLevel.str "0.6", RawLevel.arr ["0.55", "100"], RawLevel.obj "0.58" "5"]⟩

/-- C5 witness: the max/min law applied to the three-representation book,
together with the concrete evaluation bestBid = 0.45, bestAsk = 0.55. -/
theorem best_prices_are_max_min_of_parsed_witness :
    getBestBid obThreeForms = some (some (9 / 20)) ∧
    getBestAsk obThreeForms = some (some (11 / 20)) ∧
    (∃ m : ℚ, getBestBid obThreeForms = some (some m) ∧
      some m ∈ obThreeForms.bids.map levelPrice ∧
      ∀ l ∈ obThreeForms.bids, ∀ y : ℚ, levelPrice l = some y → y ≤ m) := by
  refine ⟨?_, ?_, ?_⟩
  · simp +decide [obThreeForms, getBestBid, levelPrice, parseFloat, parseDigits, jsMax]
    norm_num
  · simp +decide [obThreeForms, getBestAsk, levelPrice, parseFloat, parseDigits, jsMin]
    norm_num
  · exact (best_prices_are_max_min_of_parsed obThreeForms).2.2.1
      (RawLevel.str "0.4") [RawLevel.arr ["0.45", "100"], RawLevel.obj "0.42" "5"] rfl
      (by intro l hl
          fin_cases hl <;>
            simp +decide [levelPrice, parseFloat, parseDigits])

end PMMBot
